import Mathlib

set_option maxRecDepth 8000

/-!
Verification of the math-tool solver service.

This file shallowly embeds the expression-solving pipeline of the
`python-service` repository: `SolverService.latex_to_sympy`,
`SolverService.solve_equation`, `SolverService.differentiate`,
`SolverService.integrate` (app/services/solver_service.py) and the
`verify_answer` route (app/routes/solve.py).

The SymPy algebra engine is external to the repository (the spec lists its
capability surface in section 6), so the embedding is parameterised by an
`Engine` record whose fallible operations return `Except String`; a raised
exception corresponds to an `Except.error` carrying the exception message.
The Python string primitives used by the code (`str.strip`, `str.replace`,
`str.split`, `in`) are embedded as executable functions on `List Char`
with the same semantics.
-/

namespace MathTool

/-! ## Python string primitives -/

/-- Python `s.split(sep)` for a one-character separator: splits on every
occurrence, keeping empty segments (`"".split("=") == [""]`). -/
def splitOnChar (c : Char) : List Char → List (List Char)
  | [] => [[]]
  | x :: xs =>
    match splitOnChar c xs with
    | [] => [[]]
    | h :: t => if x = c then [] :: h :: t else (x :: h) :: t

/-- Python `str.strip()`: remove whitespace from both ends. -/
def strip (l : List Char) : List Char :=
  List.rdropWhile Char.isWhitespace (l.dropWhile Char.isWhitespace)

/-- Fuel-driven worker for `replaceAll`; the fuel is an upper bound on the
number of characters still to be scanned, so `replaceAll` below never runs
out when the pattern is non-empty. -/
def replaceAllAux (pat : List Char) : Nat → List Char → List Char
  | _, [] => []
  | 0, s => s
  | f + 1, c :: cs =>
    if !pat.isEmpty && pat.isPrefixOf (c :: cs) then
      replaceAllAux pat f ((c :: cs).drop pat.length)
    else
      c :: replaceAllAux pat f cs

/-- Python `s.replace(pat, "")` for a non-empty pattern: delete every
non-overlapping occurrence, scanning left to right. -/
def replaceAll (pat s : List Char) : List Char :=
  replaceAllAux pat s.length s

/-- Python `str.strip()` lifted to `String`. -/
def stripStr (s : String) : String :=
  String.mk (strip s.data)

/-- Python `latex.split("=")` lifted to `String`. -/
def splitParts (s : String) : List String :=
  (splitOnChar '=' s.data).map String.mk

/-- Python `"=" in latex`. -/
def containsEq (s : String) : Bool :=
  s.data.contains '='

/-! ## LaTeX normalization (solver_service.py lines 30-37)

`latex_to_sympy` first strips the input and deletes the literal tokens
`\left` and `\right`, then hands the result to the engine parser. -/

def leftTok : List Char := ['\\', 'l', 'e', 'f', 't']

def rightTok : List Char := ['\\', 'r', 'i', 'g', 'h', 't']

/-- The normalization performed by `latex_to_sympy` before parsing:
`latex.strip()`, then `.replace("\left", "")`, then `.replace("\right", "")`. -/
def normalize (s : String) : String :=
  String.mk (replaceAll rightTok (replaceAll leftTok (strip s.data)))

/-! ## Data model (solver_service.py lines 10-24) -/

/-- The `SolutionStep` dataclass. -/
structure SolutionStep where
  step_number : Nat
  description : String
  expression_latex : String
deriving DecidableEq, Repr

/-- The `SolveResult` dataclass; `error` defaults to `None` in the code,
modelled as `none`. -/
structure SolveResult where
  success : Bool
  answer_latex : String
  steps : List SolutionStep
  error : Option String
deriving DecidableEq, Repr

/-- The dictionary returned by the `verify_answer` route: a key that is
absent from the returned dict is `none`. -/
structure VerifyResponse where
  is_correct : Bool
  error : Option String
  expected_answer : Option String
  user_answer : Option String
deriving DecidableEq, Repr

/-! ## The external algebra engine (SymPy)

The engine is outside the repository; the spec (section 6) enumerates the
capability surface consumed by the service. Fallible capabilities return
`Except String`, the error string being the Python exception message. -/

structure Engine (α : Type) where
  parse : String → Except String α
  render : α → String
  renderList : List α → String
  renderSym : String → String
  mkEq : α → α → α
  simplify : α → Except String α
  solveEq : α → String → Except String (List α)
  diffOp : α → String → Except String α
  intOp : α → String → Except String α
  freeSymbols : α → List String
  subOp : α → α → Except String α
  zero : α
  beq : α → α → Bool

variable {α : Type}

/-- The function `SolverService.latex_to_sympy`: normalize, then parse via the engine. -/
def latex_to_sympy (E : Engine α) (latex : String) : Except String α :=
  E.parse (normalize latex)

/-- A failure `SolveResult` as built by the `except` clauses: `success=False`,
empty answer, the steps accumulated so far, and the exception message. -/
def mkFail (steps : List SolutionStep) (m : String) : SolveResult :=
  ⟨false, "", steps, some m⟩

/-- Auto-detection of the solve variable (solver_service.py lines 93-98):
`list(expr.free_symbols)[0]` if the set is non-empty, else `Symbol("x")`. -/
def autoVar (E : Engine α) (e : α) : String :=
  match E.freeSymbols e with
  | [] => "x"
  | v :: _ => v

/-- Resolution of the solve variable (solver_service.py lines 89-98).
Python `if solve_for:` is falsy both for `None` and for the empty string,
so a supplied empty string also triggers auto-detection. -/
def resolveVar (E : Engine α) (e : α) (solve_for : Option String) : String :=
  match solve_for with
  | some s => if s = "" then autoVar E e else s
  | none => autoVar E e

/-- The method `SolverService.solve_equation` (solver_service.py lines 44-164).
The `show_steps` flag is accepted and never read, exactly as in the code.
When the input contains an equality sign but splitting on `=` does not give
exactly two parts, the Python function falls off the end of the
`try` block and implicitly returns `None`; this is modelled by `none`. -/
def solve_equation (E : Engine α) (latex : String) (solve_for : Option String)
    (show_steps : Bool) : Option SolveResult :=
  let steps1 : List SolutionStep := [⟨1, "Parse the expression", latex⟩]
  match latex_to_sympy E latex with
  | .error m => some (mkFail steps1 m)
  | .ok expr =>
    if containsEq latex then
      match splitParts latex with
      | [p0, p1] =>
        match latex_to_sympy E p0 with
        | .error m => some (mkFail steps1 m)
        | .ok left =>
          match latex_to_sympy E p1 with
          | .error m => some (mkFail steps1 m)
          | .ok right =>
            let eqExpr := E.mkEq left right
            let steps2 := steps1 ++ [⟨2, "Identify the equation", E.render eqExpr⟩]
            let var := resolveVar E eqExpr solve_for
            let steps3 := steps2 ++ [⟨3, "Solve for " ++ var, E.renderSym var⟩]
            match E.solveEq eqExpr var with
            | .error m => some (mkFail steps3 m)
            | .ok sols =>
              match sols with
              | [] => some ⟨false, "", steps3, some "No solution found"⟩
              | s :: rest =>
                let answer := match rest with
                  | [] => E.render s
                  | _ => E.renderList (s :: rest)
                let full := var ++ " = " ++ answer
                some ⟨true, full, steps3 ++ [⟨4, "Solution", full⟩], none⟩
      | _ => none
    else
      let steps2 := steps1 ++ [⟨2, "Simplify the expression", E.render expr⟩]
      match E.simplify expr with
      | .error m => some (mkFail steps2 m)
      | .ok simplified =>
        let sl := E.render simplified
        some ⟨true, sl, steps2 ++ [⟨3, "Simplified result", sl⟩], none⟩

/-- The method `SolverService.differentiate` (solver_service.py lines 166-213).
Parsing happens before the first step is recorded, so a parse failure
returns an empty step list. The extra "Simplify" step is recorded only when
the simplified form differs structurally from the raw derivative. -/
def differentiate (E : Engine α) (latex : String) (var : String) : SolveResult :=
  match latex_to_sympy E latex with
  | .error m => ⟨false, "", [], some m⟩
  | .ok expr =>
    let steps1 : List SolutionStep :=
      [⟨1, "Differentiate with respect to " ++ var,
        "\\frac\x7bd\x7d\x7bd" ++ var ++ "\x7d\\left(" ++ latex ++ "\\right)"⟩]
    match E.diffOp expr var with
    | .error m => ⟨false, "", steps1, some m⟩
    | .ok derivative =>
      let dlat := E.render derivative
      let steps2 := steps1 ++ [⟨2, "Apply differentiation rules", dlat⟩]
      match E.simplify derivative with
      | .error m => ⟨false, "", steps2, some m⟩
      | .ok simplified =>
        if E.beq simplified derivative then ⟨true, dlat, steps2, none⟩
        else
          let slat := E.render simplified
          ⟨true, slat, steps2 ++ [⟨3, "Simplify", slat⟩], none⟩

/-- The method `SolverService.integrate` (solver_service.py lines 215-251): the literal
suffix `" + C"` is appended both to the recorded step and to the answer. -/
def integrate (E : Engine α) (latex : String) (var : String) : SolveResult :=
  match latex_to_sympy E latex with
  | .error m => ⟨false, "", [], some m⟩
  | .ok expr =>
    let steps1 : List SolutionStep :=
      [⟨1, "Integrate with respect to " ++ var, "\\int " ++ latex ++ " \\, d" ++ var⟩]
    match E.intOp expr var with
    | .error m => ⟨false, "", steps1, some m⟩
    | .ok integral =>
      let ilat := E.render integral
      ⟨true, ilat ++ " + C",
       steps1 ++ [⟨2, "Apply integration rules", ilat ++ " + C"⟩], none⟩

/-- The string actually compared against on the expected side of
`verify_answer`: `expected_answer.split("=")[-1].strip()`. -/
def lastSegStrip (s : String) : String :=
  stripStr ((splitParts s).getLastD "")

/-- The comparison block of `verify_answer` (solve.py lines 121-142): parse
the whole user answer, parse the stripped text after the last `=` of the
expected answer, subtract, simplify, and compare structurally with the
literal zero; any exception yields `is_correct=False` with the message. -/
def verifyCompare (E : Engine α) (expected user_answer : String) : VerifyResponse :=
  match E.parse user_answer with
  | .error m => ⟨false, some m, none, none⟩
  | .ok u =>
    match E.parse (lastSegStrip expected) with
    | .error m => ⟨false, some m, none, none⟩
    | .ok x =>
      match E.subOp u x with
      | .error m => ⟨false, some m, none, none⟩
      | .ok d =>
        match E.simplify d with
        | .error m => ⟨false, some m, none, none⟩
        | .ok ds => ⟨E.beq ds E.zero, none, some expected, some user_answer⟩

/-- The `verify_answer` route (solve.py lines 93-142). Python
`if not expected_answer:` treats both `None` and `""` as absent. When the
inner `solve_equation` call returns `None` (multi-`=` input), the attribute
access `result.success` raises an uncaught exception; that crash is
modelled by `none`. -/
def verify_answer (E : Engine α) (expression_latex user_answer : String)
    (expected_answer : Option String) : Option VerifyResponse :=
  let supplied : Option String :=
    match expected_answer with
    | none => none
    | some s => if s = "" then none else some s
  match supplied with
  | some exp => some (verifyCompare E exp user_answer)
  | none =>
    match solve_equation E expression_latex none true with
    | none => none
    | some r =>
      if r.success then some (verifyCompare E r.answer_latex user_answer)
      else some ⟨false, r.error, none, none⟩

/-! ## Concrete engines used for witnesses and counterexamples -/

/-- A simple concrete engine over string expressions: parsing always
succeeds, rendering is constant (hence never empty), the free-symbol set is
`{y}`, and subtraction of equal strings simplifies to the zero literal. -/
def TestEngine : Engine String where
  parse s := .ok s
  render _ := "r"
  renderList _ := "rs"
  renderSym s := s
  mkEq l r := l ++ "=" ++ r
  simplify e := .ok e
  solveEq e _ := .ok [e]
  diffOp e _ := .ok e
  intOp e _ := .ok e
  freeSymbols _ := ["y"]
  subOp u x := .ok (if u == x then "0" else u ++ "-" ++ x)
  zero := "0"
  beq a b := a == b

/-- Expressions of the miniature SymPy-like engine: numerals, symbols,
equations, and unevaluated differences. -/
inductive MExpr where
  | num : Int → MExpr
  | sym : String → MExpr
  | eqn : MExpr → MExpr → MExpr
  | dif : MExpr → MExpr → MExpr
deriving DecidableEq, Repr

/-- Atom parser of the miniature engine. -/
def matom (s : String) : MExpr :=
  if s = "2" then .num 2 else .sym s

/-- A miniature engine reproducing the SymPy behaviours `verify_answer`
relies on: a string containing `=` parses to an equation object, and
arithmetic on an equation object raises a TypeError. -/
def MiniE : Engine MExpr where
  parse s :=
    match splitParts s with
    | [a] => .ok (matom (stripStr a))
    | [a, b] => .ok (.eqn (matom (stripStr a)) (matom (stripStr b)))
    | _ => .error "ParseError"
  render _ := "m"
  renderList _ := "ms"
  renderSym s := s
  mkEq := .eqn
  simplify e :=
    .ok (match e with
      | .dif a b => if a = b then .num 0 else .dif a b
      | e => e)
  solveEq _ _ := .ok []
  diffOp e _ := .ok e
  intOp e _ := .ok e
  freeSymbols _ := []
  subOp u x :=
    match u, x with
    | .eqn _ _, _ => .error "TypeError: unsupported operand"
    | _, .eqn _ _ => .error "TypeError: unsupported operand"
    | a, b => .ok (.dif a b)
  zero := .num 0
  beq a b := a == b

/-! ## Predicates used by the claims -/

/-- The pair of a `VerifyResponse` that carries the verification verdict:
the correctness flag and the error message. -/
def verdict (v : VerifyResponse) : Bool × Option String :=
  (v.is_correct, v.error)

/-- The `SolveResult` invariant of the spec (section 3): success implies no
error and a non-empty answer; failure implies a non-empty error message. -/
def resultOk (r : SolveResult) : Prop :=
  (r.success = true → r.error = none ∧ r.answer_latex ≠ "") ∧
  (r.success = false → ∃ m, r.error = some m ∧ m ≠ "")

/-- The step numbers of a step list form the sequence `1, 2, ..., n`. -/
def stepsSeq (l : List SolutionStep) : Prop :=
  l.map SolutionStep.step_number = List.range' 1 l.length

/-- The first step recorded by `differentiate`, built from the literal
(unnormalized) input. -/
def diff_step1 (latex v : String) : SolutionStep :=
  ⟨1, "Differentiate with respect to " ++ v,
    "\\frac\x7bd\x7d\x7bd" ++ v ++ "\x7d\\left(" ++ latex ++ "\\right)"⟩

/-! ## Helper lemmas -/

theorem str_append_ne_empty_left (s t : String) (h : s ≠ "") : s ++ t ≠ "" := by
  intro heq
  apply h
  rw [String.ext_iff] at heq ⊢
  rw [String.data_append] at heq
  exact (List.append_eq_nil.mp heq).1

theorem str_append_ne_empty_right (s t : String) (h : t ≠ "") : s ++ t ≠ "" := by
  intro heq
  apply h
  rw [String.ext_iff] at heq ⊢
  rw [String.data_append] at heq
  exact (List.append_eq_nil.mp heq).2

theorem strip_idem (l : List Char) : strip (strip l) = strip l := by
  unfold strip
  have h1 : List.dropWhile Char.isWhitespace
      (List.rdropWhile Char.isWhitespace (l.dropWhile Char.isWhitespace)) =
      List.rdropWhile Char.isWhitespace (l.dropWhile Char.isWhitespace) := by
    obtain ⟨w, hw⟩ := List.rdropWhile_prefix Char.isWhitespace
      (l.dropWhile Char.isWhitespace)
    rcases hr : List.rdropWhile Char.isWhitespace (l.dropWhile Char.isWhitespace) with
      _ | ⟨c, t⟩
    · simp
    · rw [hr] at hw
      have hm : l.dropWhile Char.isWhitespace = c :: (t ++ w) := by
        rw [← hw]; simp
      have hc : Char.isWhitespace c = false := by
        have := List.head_dropWhile_not Char.isWhitespace l (by rw [hm]; simp)
        simp only [hm, List.head_cons] at this
        exact this
      simp [hc]
  rw [h1, List.rdropWhile_idempotent]


/-! ## Path equations

One equation per execution path of each dispatcher operation; the claim
proofs below are case analyses over these. -/

theorem se_parse_err {α : Type} (E : Engine α) (latex : String) (sf : Option String)
    (ss : Bool) (m : String) (h : latex_to_sympy E latex = .error m) :
    solve_equation E latex sf ss =
      some ⟨false, "", [⟨1, "Parse the expression", latex⟩], some m⟩ := by
  unfold solve_equation
  rw [h]
  rfl

theorem se_none_of_parts {α : Type} (E : Engine α) (latex : String)
    (sf : Option String) (ss : Bool) (e : α)
    (hp : latex_to_sympy E latex = .ok e) (hc : containsEq latex = true)
    (hn : (splitParts latex).length ≠ 2) :
    solve_equation E latex sf ss = none := by
  unfold solve_equation
  rw [show latex_to_sympy E latex = Except.ok e from hp, hc]
  simp only [if_true]
  split
  · rename_i p0 p1 heq
    exact absurd (by simp [heq]) hn
  · rfl

theorem se_left_err {α : Type} (E : Engine α) (latex : String) (sf : Option String)
    (ss : Bool) (e : α) (p0 p1 m : String)
    (hp : latex_to_sympy E latex = .ok e) (hc : containsEq latex = true)
    (hs : splitParts latex = [p0, p1])
    (hl : latex_to_sympy E p0 = .error m) :
    solve_equation E latex sf ss =
      some ⟨false, "", [⟨1, "Parse the expression", latex⟩], some m⟩ := by
  unfold solve_equation
  simp only [hp, hc, hs, hl, if_true]
  rfl

theorem se_right_err {α : Type} (E : Engine α) (latex : String) (sf : Option String)
    (ss : Bool) (e l : α) (p0 p1 m : String)
    (hp : latex_to_sympy E latex = .ok e) (hc : containsEq latex = true)
    (hs : splitParts latex = [p0, p1])
    (hl : latex_to_sympy E p0 = .ok l) (hr : latex_to_sympy E p1 = .error m) :
    solve_equation E latex sf ss =
      some ⟨false, "", [⟨1, "Parse the expression", latex⟩], some m⟩ := by
  unfold solve_equation
  simp only [hp, hc, hs, hl, hr, if_true]
  rfl

theorem se_solve_err {α : Type} (E : Engine α) (latex : String) (sf : Option String)
    (ss : Bool) (e l r : α) (p0 p1 m : String)
    (hp : latex_to_sympy E latex = .ok e) (hc : containsEq latex = true)
    (hs : splitParts latex = [p0, p1])
    (hl : latex_to_sympy E p0 = .ok l) (hr : latex_to_sympy E p1 = .ok r)
    (hq : E.solveEq (E.mkEq l r) (resolveVar E (E.mkEq l r) sf) = .error m) :
    solve_equation E latex sf ss =
      some ⟨false, "",
        [⟨1, "Parse the expression", latex⟩,
         ⟨2, "Identify the equation", E.render (E.mkEq l r)⟩,
         ⟨3, "Solve for " ++ resolveVar E (E.mkEq l r) sf,
          E.renderSym (resolveVar E (E.mkEq l r) sf)⟩], some m⟩ := by
  unfold solve_equation
  simp only [hp, hc, hs, hl, hr, hq, if_true]
  rfl

theorem se_no_sol {α : Type} (E : Engine α) (latex : String) (sf : Option String)
    (ss : Bool) (e l r : α) (p0 p1 : String)
    (hp : latex_to_sympy E latex = .ok e) (hc : containsEq latex = true)
    (hs : splitParts latex = [p0, p1])
    (hl : latex_to_sympy E p0 = .ok l) (hr : latex_to_sympy E p1 = .ok r)
    (hq : E.solveEq (E.mkEq l r) (resolveVar E (E.mkEq l r) sf) = .ok []) :
    solve_equation E latex sf ss =
      some ⟨false, "",
        [⟨1, "Parse the expression", latex⟩,
         ⟨2, "Identify the equation", E.render (E.mkEq l r)⟩,
         ⟨3, "Solve for " ++ resolveVar E (E.mkEq l r) sf,
          E.renderSym (resolveVar E (E.mkEq l r) sf)⟩],
        some "No solution found"⟩ := by
  unfold solve_equation
  simp only [hp, hc, hs, hl, hr, hq, if_true]
  rfl

theorem se_sol_single {α : Type} (E : Engine α) (latex : String) (sf : Option String)
    (ss : Bool) (e l r s : α) (p0 p1 : String)
    (hp : latex_to_sympy E latex = .ok e) (hc : containsEq latex = true)
    (hs : splitParts latex = [p0, p1])
    (hl : latex_to_sympy E p0 = .ok l) (hr : latex_to_sympy E p1 = .ok r)
    (hq : E.solveEq (E.mkEq l r) (resolveVar E (E.mkEq l r) sf) = .ok [s]) :
    solve_equation E latex sf ss =
      some ⟨true,
        resolveVar E (E.mkEq l r) sf ++ " = " ++ E.render s,
        [⟨1, "Parse the expression", latex⟩,
         ⟨2, "Identify the equation", E.render (E.mkEq l r)⟩,
         ⟨3, "Solve for " ++ resolveVar E (E.mkEq l r) sf,
          E.renderSym (resolveVar E (E.mkEq l r) sf)⟩,
         ⟨4, "Solution",
          resolveVar E (E.mkEq l r) sf ++ " = " ++ E.render s⟩], none⟩ := by
  unfold solve_equation
  simp only [hp, hc, hs, hl, hr, hq, if_true]
  rfl

theorem se_sol_multi {α : Type} (E : Engine α) (latex : String) (sf : Option String)
    (ss : Bool) (e l r s s2 : α) (rest : List α) (p0 p1 : String)
    (hp : latex_to_sympy E latex = .ok e) (hc : containsEq latex = true)
    (hs : splitParts latex = [p0, p1])
    (hl : latex_to_sympy E p0 = .ok l) (hr : latex_to_sympy E p1 = .ok r)
    (hq : E.solveEq (E.mkEq l r) (resolveVar E (E.mkEq l r) sf) =
      .ok (s :: s2 :: rest)) :
    solve_equation E latex sf ss =
      some ⟨true,
        resolveVar E (E.mkEq l r) sf ++ " = " ++ E.renderList (s :: s2 :: rest),
        [⟨1, "Parse the expression", latex⟩,
         ⟨2, "Identify the equation", E.render (E.mkEq l r)⟩,
         ⟨3, "Solve for " ++ resolveVar E (E.mkEq l r) sf,
          E.renderSym (resolveVar E (E.mkEq l r) sf)⟩,
         ⟨4, "Solution",
          resolveVar E (E.mkEq l r) sf ++ " = " ++
            E.renderList (s :: s2 :: rest)⟩], none⟩ := by
  unfold solve_equation
  simp only [hp, hc, hs, hl, hr, hq, if_true]
  rfl

theorem se_simplify_err {α : Type} (E : Engine α) (latex : String)
    (sf : Option String) (ss : Bool) (e : α) (m : String)
    (hp : latex_to_sympy E latex = .ok e) (hc : containsEq latex = false)
    (hm : E.simplify e = .error m) :
    solve_equation E latex sf ss =
      some ⟨false, "",
        [⟨1, "Parse the expression", latex⟩,
         ⟨2, "Simplify the expression", E.render e⟩], some m⟩ := by
  unfold solve_equation
  simp only [hp, hc, Bool.false_eq_true, if_false, hm]
  rfl

theorem se_simplified {α : Type} (E : Engine α) (latex : String)
    (sf : Option String) (ss : Bool) (e s : α)
    (hp : latex_to_sympy E latex = .ok e) (hc : containsEq latex = false)
    (hm : E.simplify e = .ok s) :
    solve_equation E latex sf ss =
      some ⟨true, E.render s,
        [⟨1, "Parse the expression", latex⟩,
         ⟨2, "Simplify the expression", E.render e⟩,
         ⟨3, "Simplified result", E.render s⟩], none⟩ := by
  unfold solve_equation
  simp only [hp, hc, Bool.false_eq_true, if_false, hm]
  rfl

theorem diff_parse_err {α : Type} (E : Engine α) (latex v m : String)
    (h : latex_to_sympy E latex = .error m) :
    differentiate E latex v = ⟨false, "", [], some m⟩ := by
  unfold differentiate
  rw [h]

theorem diff_op_err {α : Type} (E : Engine α) (latex v m : String) (e : α)
    (hp : latex_to_sympy E latex = .ok e) (hd : E.diffOp e v = .error m) :
    differentiate E latex v = ⟨false, "", [diff_step1 latex v], some m⟩ := by
  unfold differentiate
  simp only [hp, hd]
  rfl

theorem diff_simp_err {α : Type} (E : Engine α) (latex v m : String) (e d : α)
    (hp : latex_to_sympy E latex = .ok e) (hd : E.diffOp e v = .ok d)
    (hm : E.simplify d = .error m) :
    differentiate E latex v =
      ⟨false, "",
        [diff_step1 latex v, ⟨2, "Apply differentiation rules", E.render d⟩],
        some m⟩ := by
  unfold differentiate
  simp only [hp, hd, hm]
  rfl

theorem diff_beq_true {α : Type} (E : Engine α) (latex v : String) (e d s : α)
    (hp : latex_to_sympy E latex = .ok e) (hd : E.diffOp e v = .ok d)
    (hm : E.simplify d = .ok s) (hb : E.beq s d = true) :
    differentiate E latex v =
      ⟨true, E.render d,
        [diff_step1 latex v, ⟨2, "Apply differentiation rules", E.render d⟩],
        none⟩ := by
  unfold differentiate
  simp only [hp, hd, hm, hb, if_true, Bool.false_eq_true, if_false]
  rfl

theorem diff_beq_false {α : Type} (E : Engine α) (latex v : String) (e d s : α)
    (hp : latex_to_sympy E latex = .ok e) (hd : E.diffOp e v = .ok d)
    (hm : E.simplify d = .ok s) (hb : E.beq s d = false) :
    differentiate E latex v =
      ⟨true, E.render s,
        [diff_step1 latex v, ⟨2, "Apply differentiation rules", E.render d⟩,
         ⟨3, "Simplify", E.render s⟩], none⟩ := by
  unfold differentiate
  simp only [hp, hd, hm, hb, if_true, Bool.false_eq_true, if_false]
  rfl

theorem int_parse_err {α : Type} (E : Engine α) (latex v m : String)
    (h : latex_to_sympy E latex = .error m) :
    integrate E latex v = ⟨false, "", [], some m⟩ := by
  unfold integrate
  rw [h]

theorem int_op_err {α : Type} (E : Engine α) (latex v m : String) (e : α)
    (hp : latex_to_sympy E latex = .ok e) (hi : E.intOp e v = .error m) :
    integrate E latex v =
      ⟨false, "",
        [⟨1, "Integrate with respect to " ++ v, "\\int " ++ latex ++ " \\, d" ++ v⟩],
        some m⟩ := by
  unfold integrate
  simp only [hp, hi]

theorem int_ok {α : Type} (E : Engine α) (latex v : String) (e i : α)
    (hp : latex_to_sympy E latex = .ok e) (hi : E.intOp e v = .ok i) :
    integrate E latex v =
      ⟨true, E.render i ++ " + C",
        [⟨1, "Integrate with respect to " ++ v, "\\int " ++ latex ++ " \\, d" ++ v⟩,
         ⟨2, "Apply integration rules", E.render i ++ " + C"⟩], none⟩ := by
  unfold integrate
  simp only [hp, hi]
  rfl

theorem va_supplied {α : Type} (E : Engine α) (q u exp : String) (hexp : exp ≠ "") :
    verify_answer E q u (some exp) = some (verifyCompare E exp u) := by
  unfold verify_answer
  simp [hexp]

theorem va_solved {α : Type} (E : Engine α) (q u : String) (r : SolveResult)
    (hr : solve_equation E q none true = some r) (hs : r.success = true) :
    verify_answer E q u none = some (verifyCompare E r.answer_latex u) := by
  unfold verify_answer
  simp [hr, hs]

theorem vc_user_err {α : Type} (E : Engine α) (exp u m : String)
    (h : E.parse u = .error m) :
    verifyCompare E exp u = ⟨false, some m, none, none⟩ := by
  unfold verifyCompare
  rw [h]

theorem vc_exp_err {α : Type} (E : Engine α) (exp u m : String) (uu : α)
    (hu : E.parse u = .ok uu) (hx : E.parse (lastSegStrip exp) = .error m) :
    verifyCompare E exp u = ⟨false, some m, none, none⟩ := by
  unfold verifyCompare
  simp only [hu, hx]

theorem vc_sub_err {α : Type} (E : Engine α) (exp u m : String) (uu xx : α)
    (hu : E.parse u = .ok uu) (hx : E.parse (lastSegStrip exp) = .ok xx)
    (hd : E.subOp uu xx = .error m) :
    verifyCompare E exp u = ⟨false, some m, none, none⟩ := by
  unfold verifyCompare
  simp only [hu, hx, hd]

theorem vc_simp_err {α : Type} (E : Engine α) (exp u m : String) (uu xx d : α)
    (hu : E.parse u = .ok uu) (hx : E.parse (lastSegStrip exp) = .ok xx)
    (hd : E.subOp uu xx = .ok d) (hm : E.simplify d = .error m) :
    verifyCompare E exp u = ⟨false, some m, none, none⟩ := by
  unfold verifyCompare
  simp only [hu, hx, hd, hm]

theorem vc_ok {α : Type} (E : Engine α) (exp u : String) (uu xx d ds : α)
    (hu : E.parse u = .ok uu) (hx : E.parse (lastSegStrip exp) = .ok xx)
    (hd : E.subOp uu xx = .ok d) (hm : E.simplify d = .ok ds) :
    verifyCompare E exp u = ⟨E.beq ds E.zero, none, some exp, some u⟩ := by
  unfold verifyCompare
  simp only [hu, hx, hd, hm]

theorem resultOk_fail (steps : List SolutionStep) (m : String) (hm : m ≠ "") :
    resultOk ⟨false, "", steps, some m⟩ :=
  ⟨fun h => Bool.noConfusion h, fun _ => ⟨m, rfl, hm⟩⟩

theorem resultOk_success (a : String) (steps : List SolutionStep) (ha : a ≠ "") :
    resultOk ⟨true, a, steps, none⟩ :=
  ⟨fun _ => ⟨rfl, ha⟩, fun h => Bool.noConfusion h⟩

/-! ## Claim theorems -/

/-- C1: the claimed totality fails on the code. For an input containing more
than one equality sign, `latex.split("=")` has three or more parts, the
`len(parts) == 2` branch is skipped, the `else` belongs to the
`"=" in latex` test, and `solve_equation` falls off the end of the `try`
block, implicitly returning `None` instead of a `SolveResult` — contradicting
its own `-> SolveResult` annotation. Evaluated at the failing input
`"a=b=c"`. -/
theorem solve_equation_not_total :
    solve_equation TestEngine "a=b=c" none true = none := by decide

/-- C2 counterexample: the later segments of a multi-equality input are not
merely discarded. If only the first two segments were used, `"a=b=c"` would
behave like `"a=b"`; instead the former produces no result at all. -/
theorem multi_eq_segments_used_counterexample :
    solve_equation TestEngine "a=b=c" none true ≠
      solve_equation TestEngine "a=b" none true := by decide

/-- C2 amended: for an input that contains an equality sign, splits into a
number of segments other than two, and whose full text parses, none of the
segments is used: the equation branch is skipped entirely and
`solve_equation` returns no `SolveResult` (Python `None`). -/
theorem multi_eq_falls_through {α : Type} (E : Engine α) (latex : String)
    (sf : Option String) (ss : Bool) (e : α)
    (hc : containsEq latex = true)
    (hn : (splitParts latex).length ≠ 2)
    (hp : E.parse (normalize latex) = .ok e) :
    solve_equation E latex sf ss = none := by
  unfold solve_equation
  rw [show latex_to_sympy E latex = Except.ok e from hp, hc]
  simp only [if_true]
  split
  · rename_i p0 p1 heq
    exact absurd (by simp [heq]) hn
  · rfl

/-- C2 amended witness at a concrete multi-equality input. -/
theorem multi_eq_falls_through_witness :
    solve_equation TestEngine "p=q=r=s" (some "z") false = none :=
  multi_eq_falls_through TestEngine "p=q=r=s" (some "z") false "p=q=r=s"
    (by decide) (by decide) rfl

/-- C6: whenever `integrate` produces a successful result, the final answer
carries the literal suffix `" + C"`, and a recorded step with description
"Apply integration rules" carries exactly that same suffixed text. -/
theorem integrate_plus_C {α : Type} (E : Engine α) (latex var : String)
    (h : (integrate E latex var).success = true) :
    (∃ s, (integrate E latex var).answer_latex = s ++ " + C") ∧
    (∃ st ∈ (integrate E latex var).steps,
        st.description = "Apply integration rules" ∧
        st.expression_latex = (integrate E latex var).answer_latex) := by
  cases hp : latex_to_sympy E latex with
  | error m => rw [int_parse_err E latex var m hp] at h; simp at h
  | ok e =>
    cases hi : E.intOp e var with
    | error m => rw [int_op_err E latex var m e hp hi] at h; simp at h
    | ok i =>
      rw [int_ok E latex var e i hp hi]
      exact ⟨⟨E.render i, rfl⟩, ⟨⟨2, "Apply integration rules",
        E.render i ++ " + C"⟩, by simp, rfl, rfl⟩⟩

/-- C6 witness at a concrete successful integration. -/
theorem integrate_plus_C_witness :
    (∃ s, (integrate TestEngine "x" "x").answer_latex = s ++ " + C") ∧
    (∃ st ∈ (integrate TestEngine "x" "x").steps,
        st.description = "Apply integration rules" ∧
        st.expression_latex = (integrate TestEngine "x" "x").answer_latex) :=
  integrate_plus_C TestEngine "x" "x" (by decide)

/-- C7: `solve_equation` never reads its `show_steps` parameter, so the call
with the flag set and the call with the flag cleared return identical
results, full step sequence included. -/
theorem show_steps_has_no_effect {α : Type} (E : Engine α) (latex : String)
    (sf : Option String) :
    solve_equation E latex sf true = solve_equation E latex sf false := rfl

/-- C8 counterexample: a supplied `solve_for` equal to the empty string is
not used as the solve variable. Python `if solve_for:` is falsy on `""`, so
auto-detection runs instead and returns the head `"y"` of the engine's
free-variable list. -/
theorem resolveVar_supplied_counterexample :
    resolveVar TestEngine "e" (some "") = "y" ∧ ("y" : String) ≠ "" := by decide

/-- C8 amended: if `solve_for` is supplied and non-empty, that exact name is
used with no validation against the expression; if it is absent or the empty
string, auto-detection chooses the head of the engine's free-variable list
when one exists and the default `"x"` otherwise. -/
theorem resolveVar_spec {α : Type} (E : Engine α) (e : α) (sf : Option String) :
    (∀ s, sf = some s → s ≠ "" → resolveVar E e sf = s) ∧
    (sf = none ∨ sf = some "" →
      (E.freeSymbols e = [] → resolveVar E e sf = "x") ∧
      (∀ v vs, E.freeSymbols e = v :: vs →
        resolveVar E e sf = v ∧ resolveVar E e sf ∈ E.freeSymbols e)) := by
  constructor
  · rintro s rfl hs
    simp [resolveVar, hs]
  · rintro (rfl | rfl) <;>
      exact ⟨fun hfs => by simp [resolveVar, autoVar, hfs],
        fun v vs hfs => by simp [resolveVar, autoVar, hfs]⟩

/-- C8 amended witness: a supplied non-empty name is returned verbatim, and
an absent name triggers auto-detection. -/
theorem resolveVar_spec_witness :
    resolveVar TestEngine "e" (some "z") = "z" ∧
    resolveVar TestEngine "e" none = "y" :=
  ⟨(resolveVar_spec TestEngine "e" (some "z")).1 "z" rfl (by decide),
   (((resolveVar_spec TestEngine "e" none).2 (Or.inl rfl)).2 "y" [] rfl).1⟩

/-- C9 counterexample: the normalization is not idempotent. Deleting the
token `\left` from `"\left a"` exposes a leading space that only a second
pass trims: one pass gives `" a"`, two passes give `"a"`. -/
theorem normalize_not_idempotent :
    normalize (normalize "\\left a") ≠ normalize "\\left a" := by decide

/-- C9 amended: the normalization is not idempotent in general — a deleted
token can expose end whitespace (or splice together a new token occurrence)
that a second pass would also remove — but it is idempotent whenever
deleting the `\left` and `\right` tokens leaves the trimmed input
unchanged, in particular on every token-free input. This is a sufficient
condition only; the theorem does not claim the converse. -/
theorem normalize_idempotent_of_tokens_fixed (s : String)
    (h1 : replaceAll leftTok (strip s.data) = strip s.data)
    (h2 : replaceAll rightTok (strip s.data) = strip s.data) :
    normalize (normalize s) = normalize s := by
  unfold normalize
  rw [h1, h2]
  show String.mk (replaceAll rightTok (replaceAll leftTok (strip (strip s.data)))) = _
  rw [strip_idem, h1, h2]

/-- C9 amended witness at a token-free input with surrounding whitespace. -/
theorem normalize_idempotent_witness :
    normalize (normalize "  x + 1  ") = normalize "  x + 1  " :=
  normalize_idempotent_of_tokens_fixed "  x + 1  " (by decide) (by decide)

/-- C3: every result actually returned by `solve_equation`, `differentiate`,
or `integrate` satisfies the `SolveResult` invariant, provided the engine's
renderer never produces an empty string and its exception messages are
non-empty: success implies no error and a non-empty answer, failure implies
a non-empty error message. -/
theorem solve_result_invariant {β : Type} (E : Engine β)
    (hren : ∀ e, E.render e ≠ "")
    (hpar : ∀ s m, E.parse s = .error m → m ≠ "")
    (hsim : ∀ e m, E.simplify e = .error m → m ≠ "")
    (hsol : ∀ e v m, E.solveEq e v = .error m → m ≠ "")
    (hdif : ∀ e v m, E.diffOp e v = .error m → m ≠ "")
    (hin : ∀ e v m, E.intOp e v = .error m → m ≠ "") :
    (∀ latex sf ss r, solve_equation E latex sf ss = some r → resultOk r) ∧
    (∀ latex v, resultOk (differentiate E latex v)) ∧
    (∀ latex v, resultOk (integrate E latex v)) := by
  refine ⟨?_, ?_, ?_⟩
  · intro latex sf ss r hr
    cases hp : latex_to_sympy E latex with
    | error m =>
      rw [se_parse_err E latex sf ss m hp] at hr
      injection hr with h
      subst h
      exact resultOk_fail _ m (hpar _ m hp)
    | ok e =>
      cases hc : containsEq latex with
      | true =>
        by_cases hn : (splitParts latex).length = 2
        · obtain ⟨p0, p1, hsp⟩ := List.length_eq_two.mp hn
          cases hl : latex_to_sympy E p0 with
          | error m =>
            rw [se_left_err E latex sf ss e p0 p1 m hp hc hsp hl] at hr
            injection hr with h
            subst h
            exact resultOk_fail _ m (hpar _ m hl)
          | ok l =>
            cases hrr : latex_to_sympy E p1 with
            | error m =>
              rw [se_right_err E latex sf ss e l p0 p1 m hp hc hsp hl hrr] at hr
              injection hr with h
              subst h
              exact resultOk_fail _ m (hpar _ m hrr)
            | ok rr =>
              cases hq : E.solveEq (E.mkEq l rr) (resolveVar E (E.mkEq l rr) sf) with
              | error m =>
                rw [se_solve_err E latex sf ss e l rr p0 p1 m hp hc hsp hl hrr hq] at hr
                injection hr with h
                subst h
                exact resultOk_fail _ m (hsol _ _ m hq)
              | ok sols =>
                match sols, hq with
                | [], hq =>
                  rw [se_no_sol E latex sf ss e l rr p0 p1 hp hc hsp hl hrr hq] at hr
                  injection hr with h
                  subst h
                  exact resultOk_fail _ _ (by decide)
                | [s], hq =>
                  rw [se_sol_single E latex sf ss e l rr s p0 p1 hp hc hsp hl hrr hq] at hr
                  injection hr with h
                  subst h
                  exact resultOk_success _ _
                    (str_append_ne_empty_left _ _
                      (str_append_ne_empty_right _ " = " (by decide)))
                | s :: s2 :: rest, hq =>
                  rw [se_sol_multi E latex sf ss e l rr s s2 rest p0 p1
                    hp hc hsp hl hrr hq] at hr
                  injection hr with h
                  subst h
                  exact resultOk_success _ _
                    (str_append_ne_empty_left _ _
                      (str_append_ne_empty_right _ " = " (by decide)))
        · rw [se_none_of_parts E latex sf ss e hp hc hn] at hr
          exact Option.noConfusion hr
      | false =>
        cases hm : E.simplify e with
        | error m =>
          rw [se_simplify_err E latex sf ss e m hp hc hm] at hr
          injection hr with h
          subst h
          exact resultOk_fail _ m (hsim _ m hm)
        | ok s =>
          rw [se_simplified E latex sf ss e s hp hc hm] at hr
          injection hr with h
          subst h
          exact resultOk_success _ _ (hren s)
  · intro latex v
    cases hp : latex_to_sympy E latex with
    | error m =>
      rw [diff_parse_err E latex v m hp]
      exact resultOk_fail _ m (hpar _ m hp)
    | ok e =>
      cases hd : E.diffOp e v with
      | error m =>
        rw [diff_op_err E latex v m e hp hd]
        exact resultOk_fail _ m (hdif _ _ m hd)
      | ok d =>
        cases hm : E.simplify d with
        | error m =>
          rw [diff_simp_err E latex v m e d hp hd hm]
          exact resultOk_fail _ m (hsim _ m hm)
        | ok s =>
          cases hb : E.beq s d with
          | true =>
            rw [diff_beq_true E latex v e d s hp hd hm hb]
            exact resultOk_success _ _ (hren d)
          | false =>
            rw [diff_beq_false E latex v e d s hp hd hm hb]
            exact resultOk_success _ _ (hren s)
  · intro latex v
    cases hp : latex_to_sympy E latex with
    | error m =>
      rw [int_parse_err E latex v m hp]
      exact resultOk_fail _ m (hpar _ m hp)
    | ok e =>
      cases hi : E.intOp e v with
      | error m =>
        rw [int_op_err E latex v m e hp hi]
        exact resultOk_fail _ m (hin _ _ m hi)
      | ok i =>
        rw [int_ok E latex v e i hp hi]
        exact resultOk_success _ _ (str_append_ne_empty_right _ " + C" (by decide))

/-- C3 witness: the invariant instantiated at a concrete engine whose
renderer is non-empty and whose operations never fail, for one concrete
integration and one concrete differentiation. -/
theorem solve_result_invariant_witness :
    resultOk (integrate TestEngine "x" "x") ∧
    resultOk (differentiate TestEngine "x" "x") := by
  have h := solve_result_invariant TestEngine
    (fun e h => absurd h (of_decide_eq_true rfl))
    (fun s m hm => Except.noConfusion hm)
    (fun e m hm => Except.noConfusion hm)
    (fun e v m hm => Except.noConfusion hm)
    (fun e v m hm => Except.noConfusion hm)
    (fun e v m hm => Except.noConfusion hm)
  exact ⟨h.2.2 "x" "x", h.2.1 "x" "x"⟩

/-- C4: the step numbers of any result returned by `solve_equation`,
`differentiate`, or `integrate` form the gap-free strictly increasing
sequence 1, 2, ..., n. Each path appends its steps in order and nothing
ever mutates or removes a recorded step, so every returned prefix keeps
this shape. -/
theorem step_numbers_sequential {β : Type} (E : Engine β) (latex : String)
    (sf : Option String) (ss : Bool) (v : String) :
    (∀ r, solve_equation E latex sf ss = some r → stepsSeq r.steps) ∧
    stepsSeq (differentiate E latex v).steps ∧
    stepsSeq (integrate E latex v).steps := by
  refine ⟨?_, ?_, ?_⟩
  · intro r hr
    cases hp : latex_to_sympy E latex with
    | error m =>
      rw [se_parse_err E latex sf ss m hp] at hr
      injection hr with h
      subst h
      rfl
    | ok e =>
      cases hc : containsEq latex with
      | true =>
        by_cases hn : (splitParts latex).length = 2
        · obtain ⟨p0, p1, hsp⟩ := List.length_eq_two.mp hn
          cases hl : latex_to_sympy E p0 with
          | error m =>
            rw [se_left_err E latex sf ss e p0 p1 m hp hc hsp hl] at hr
            injection hr with h
            subst h
            rfl
          | ok l =>
            cases hrr : latex_to_sympy E p1 with
            | error m =>
              rw [se_right_err E latex sf ss e l p0 p1 m hp hc hsp hl hrr] at hr
              injection hr with h
              subst h
              rfl
            | ok rr =>
              cases hq : E.solveEq (E.mkEq l rr) (resolveVar E (E.mkEq l rr) sf) with
              | error m =>
                rw [se_solve_err E latex sf ss e l rr p0 p1 m hp hc hsp hl hrr hq] at hr
                injection hr with h
                subst h
                rfl
              | ok sols =>
                match sols, hq with
                | [], hq =>
                  rw [se_no_sol E latex sf ss e l rr p0 p1 hp hc hsp hl hrr hq] at hr
                  injection hr with h
                  subst h
                  rfl
                | [s], hq =>
                  rw [se_sol_single E latex sf ss e l rr s p0 p1 hp hc hsp hl hrr hq] at hr
                  injection hr with h
                  subst h
                  rfl
                | s :: s2 :: rest, hq =>
                  rw [se_sol_multi E latex sf ss e l rr s s2 rest p0 p1
                    hp hc hsp hl hrr hq] at hr
                  injection hr with h
                  subst h
                  rfl
        · rw [se_none_of_parts E latex sf ss e hp hc hn] at hr
          exact Option.noConfusion hr
      | false =>
        cases hm : E.simplify e with
        | error m =>
          rw [se_simplify_err E latex sf ss e m hp hc hm] at hr
          injection hr with h
          subst h
          rfl
        | ok s =>
          rw [se_simplified E latex sf ss e s hp hc hm] at hr
          injection hr with h
          subst h
          rfl
  · cases hp : latex_to_sympy E latex with
    | error m => rw [diff_parse_err E latex v m hp]; rfl
    | ok e =>
      cases hd : E.diffOp e v with
      | error m => rw [diff_op_err E latex v m e hp hd]; rfl
      | ok d =>
        cases hm : E.simplify d with
        | error m => rw [diff_simp_err E latex v m e d hp hd hm]; rfl
        | ok s =>
          cases hb : E.beq s d with
          | true => rw [diff_beq_true E latex v e d s hp hd hm hb]; rfl
          | false => rw [diff_beq_false E latex v e d s hp hd hm hb]; rfl
  · cases hp : latex_to_sympy E latex with
    | error m => rw [int_parse_err E latex v m hp]; rfl
    | ok e =>
      cases hi : E.intOp e v with
      | error m => rw [int_op_err E latex v m e hp hi]; rfl
      | ok i => rw [int_ok E latex v e i hp hi]; rfl

/-- C4 witness: the step numbers of a concrete four-step solve are
1, 2, 3, 4. -/
theorem step_numbers_sequential_witness :
    stepsSeq (SolveResult.steps ⟨true, "y = r",
      [⟨1, "Parse the expression", "a=b"⟩, ⟨2, "Identify the equation", "r"⟩,
       ⟨3, "Solve for y", "y"⟩, ⟨4, "Solution", "y = r"⟩], none⟩) :=
  (step_numbers_sequential TestEngine "a=b" none true "x").1
    ⟨true, "y = r",
      [⟨1, "Parse the expression", "a=b"⟩, ⟨2, "Identify the equation", "r"⟩,
       ⟨3, "Solve for y", "y"⟩, ⟨4, "Solution", "y = r"⟩], none⟩ (by decide)

/-- C5: with an expected answer — supplied non-empty, or computed by a
successful solve — `verify_answer` compares via `verifyCompare`, which
parses the whole user answer and the stripped text after the last equality
sign of the expected answer, reports `is_correct` exactly when the
simplified symbolic difference is structurally the engine's literal zero,
and converts any parse, subtraction, or simplification exception into
`is_correct = false` with the exception message as the error. -/
theorem verify_compare_spec {β : Type} (E : Engine β) (q u exp : String)
    (hexp : exp ≠ "") :
    (verify_answer E q u (some exp) = some (verifyCompare E exp u)) ∧
    (∀ r, solve_equation E q none true = some r → r.success = true →
      verify_answer E q u none = some (verifyCompare E r.answer_latex u)) ∧
    (∀ m, E.parse u = .error m →
      verifyCompare E exp u = ⟨false, some m, none, none⟩) ∧
    (∀ uu m, E.parse u = .ok uu → E.parse (lastSegStrip exp) = .error m →
      verifyCompare E exp u = ⟨false, some m, none, none⟩) ∧
    (∀ uu xx m, E.parse u = .ok uu → E.parse (lastSegStrip exp) = .ok xx →
      E.subOp uu xx = .error m →
      verifyCompare E exp u = ⟨false, some m, none, none⟩) ∧
    (∀ uu xx d m, E.parse u = .ok uu → E.parse (lastSegStrip exp) = .ok xx →
      E.subOp uu xx = .ok d → E.simplify d = .error m →
      verifyCompare E exp u = ⟨false, some m, none, none⟩) ∧
    (∀ uu xx d ds, E.parse u = .ok uu → E.parse (lastSegStrip exp) = .ok xx →
      E.subOp uu xx = .ok d → E.simplify d = .ok ds →
      verifyCompare E exp u = ⟨E.beq ds E.zero, none, some exp, some u⟩) :=
  ⟨va_supplied E q u exp hexp,
   fun r hr hs => va_solved E q u r hr hs,
   fun m h => vc_user_err E exp u m h,
   fun uu m hu hx => vc_exp_err E exp u m uu hu hx,
   fun uu xx m hu hx hd => vc_sub_err E exp u m uu xx hu hx hd,
   fun uu xx d m hu hx hd hm => vc_simp_err E exp u m uu xx d hu hx hd hm,
   fun uu xx d ds hu hx hd hm => vc_ok E exp u uu xx d ds hu hx hd hm⟩

/-- C5 witness: a concrete verification in which the user answer `"2"`
checked against expected `"x = 2"` compares the parsed `"2"` against the
parsed text after the equality sign and reports a correct answer. -/
theorem verify_compare_spec_witness :
    verify_answer TestEngine "q" "2" (some "x = 2") =
      some (verifyCompare TestEngine "x = 2" "2") ∧
    verifyCompare TestEngine "x = 2" "2" = ⟨true, none, some "x = 2", some "2"⟩ := by
  have h := verify_compare_spec TestEngine "q" "2" "x = 2" (by decide)
  refine ⟨h.1, ?_⟩
  have h7 := h.2.2.2.2.2.2 "2" "2" "0" "0" rfl rfl rfl rfl
  exact h7

/-- C10: the expected answer is reduced to the stripped text after its last
equality sign before parsing (so two expected strings with the same last
segment give the same verdict), while the user answer is parsed whole —
on a SymPy-like engine, a user answer of the form `var = value` parses to
an equation object, whose subtraction from the expected value raises a
TypeError, so it is never judged correct by its value alone, although the
bare value form of the same answer is. -/
theorem user_answer_parsed_whole :
    (∀ (β : Type) (E : Engine β) (q u a b : String), a ≠ "" → b ≠ "" →
      lastSegStrip a = lastSegStrip b →
      (verify_answer E q u (some a)).map verdict =
        (verify_answer E q u (some b)).map verdict) ∧
    verify_answer MiniE "q" "x = 2" (some "y = 2") =
      some ⟨false, some "TypeError: unsupported operand", none, none⟩ ∧
    verify_answer MiniE "q" "2" (some "y = 2") =
      some ⟨true, none, some "y = 2", some "2"⟩ := by
  refine ⟨?_, by decide, by decide⟩
  intro β E q u a b ha hb hseg
  rw [va_supplied E q u a ha, va_supplied E q u b hb]
  show some (verdict (verifyCompare E a u)) = some (verdict (verifyCompare E b u))
  cases hu : E.parse u with
  | error m =>
    rw [vc_user_err E a u m hu, vc_user_err E b u m hu]
  | ok uu =>
    cases hx : E.parse (lastSegStrip b) with
    | error m =>
      rw [vc_exp_err E a u m uu hu (by rw [hseg]; exact hx),
        vc_exp_err E b u m uu hu hx]
    | ok xx =>
      cases hd : E.subOp uu xx with
      | error m =>
        rw [vc_sub_err E a u m uu xx hu (by rw [hseg]; exact hx) hd,
          vc_sub_err E b u m uu xx hu hx hd]
      | ok d =>
        cases hm : E.simplify d with
        | error m =>
          rw [vc_simp_err E a u m uu xx d hu (by rw [hseg]; exact hx) hd hm,
            vc_simp_err E b u m uu xx d hu hx hd hm]
        | ok ds =>
          rw [vc_ok E a u uu xx d ds hu (by rw [hseg]; exact hx) hd hm,
            vc_ok E b u uu xx d ds hu hx hd hm]
          rfl

/-- C10 witness: two expected strings sharing the same text after their last
equality sign yield the same verdict for the same user answer. -/
theorem user_answer_parsed_whole_witness :
    (verify_answer MiniE "q" "2" (some "x = 2")).map verdict =
      (verify_answer MiniE "q" "2" (some "a = b = 2")).map verdict :=
  user_answer_parsed_whole.1 MExpr MiniE "q" "2" "x = 2" "a = b = 2"
    (by decide) (by decide) (by decide)

end MathTool
